import Mathlib

/-!
Verification of the camera-navigation and render-orchestration layer of the
fractal ray-marching viewer.

Machine floating-point scalars are modelled as exact numbers: plain
bookkeeping arithmetic (timing, aspect correction, the bounded-quadratic
smoothing) is embedded over the rationals, and the trigonometric camera code
over the reals.  Unsigned 32-bit counters are embedded as naturals with
explicit saturation at 0 and 2 ^ 32 - 1.  GPU objects (shader modules, render
pipelines) are opaque handles; they are embedded as natural-number identities,
and the device validation outcome observed by an error scope is an abstract
Option String input.
-/

/-! ### Rust integer helpers -/

/-- Embedding of u32::saturating_add_signed: add an i32 delta to a u32,
saturating at 0 below and at 2 ^ 32 - 1 above.  Int.toNat realises the lower
saturation. -/
def saturating_add_signed32 (n : ℕ) (delta : ℤ) : ℕ :=
  (min ((2 : ℤ) ^ 32 - 1) ((n : ℤ) + delta)).toNat

/-! ### src/utils.rs -/

/-- Embedding of f32::clamp over the rationals: below lo gives lo, above hi
gives hi, otherwise the input. -/
def clampQ (x lo hi : ℚ) : ℚ :=
  if x < lo then lo else if hi < x then hi else x

/-- Embedding of utils::limited_quadratric_delta (the bounded-quadratic
smoothing): the factor is the kickoff when the current rate is zero and
otherwise the absolute current rate clamped to [mn, mx]; the result is
linear * delta * factor. -/
def limited_quadratric_delta (current delta kickoff mn mx linear : ℚ) : ℚ :=
  let factor := if current = 0 then kickoff else clampQ |current| mn mx
  linear * delta * factor

/-- Embedding of utils::handle_device_errors: run the closure inside an error
scope; the popped error (if any) turns the call into a failure, otherwise the
closure result is returned.  The popped error is an abstract input standing
for the device validation outcome. -/
def handle_device_errors {R : Type} (popped_error : Option String) (result : R) :
    Except String R :=
  match popped_error with
  | some error => Except.error error
  | none => Except.ok result

/-! ### src/parameters.rs -/

/-- Embedding of Parameters: the uniform block fields the specification
claims talk about.  The camera matrix and trailing padding are part of the
GPU wire layout only and carry no arithmetic, so they are omitted here. -/
structure Parameters where
  aspect_scale : ℚ × ℚ
  time : ℚ
  num_iterations : ℕ
  scene_index : ℕ
deriving DecidableEq

/-- Embedding of Parameters::update_aspect: with m = min(width, height), the
aspect scale becomes (width / m, height / m), all values converted to
scalars. -/
def Parameters.update_aspect (p : Parameters) (width height : ℕ) : Parameters :=
  let m : ℚ := ((min width height : ℕ) : ℚ)
  { p with aspect_scale := ((width : ℚ) / m, (height : ℚ) / m) }

/-- Embedding of Parameters::update_time: the time field is assigned the
given value. -/
def Parameters.update_time (p : Parameters) (time : ℚ) : Parameters :=
  { p with time := time }

/-- Embedding of Parameters::update_num_iterations: the u32 count is updated
by saturating_add_signed. -/
def Parameters.update_num_iterations (p : Parameters) (delta : ℤ) : Parameters :=
  { p with num_iterations := saturating_add_signed32 p.num_iterations delta }

/-! ### src/timing.rs -/

/-- Embedding of Timing: only the time-dilation factor takes part in the
claims; the frame instants and FPS counters are wall-clock observability
bookkeeping. -/
structure Timing where
  time_factor : ℚ
deriving DecidableEq

/-- Embedding of Timing::update: the wall-clock delta since the previous
frame is an abstract input; the parameters receive
update_time(time_factor * delta_time) and the delta is returned. -/
def Timing.update (t : Timing) (delta_time : ℚ) (p : Parameters) : Parameters × ℚ :=
  (p.update_time (t.time_factor * delta_time), delta_time)

/-- Embedding of Timing::stop_time: the time-dilation factor becomes 0. -/
def Timing.stop_time (_t : Timing) : Timing :=
  { time_factor := 0 }

/-! ### src/render_texture_config.rs -/

/-- Embedding of RenderTextureConfig: the offscreen resolution factor. -/
structure RenderTextureConfig where
  factor : ℕ
deriving DecidableEq

/-- Embedding of RenderTextureConfig::render_texture_size: the offscreen
resolution is (160 * factor, 90 * factor). -/
def RenderTextureConfig.render_texture_size (c : RenderTextureConfig) : ℕ × ℕ :=
  (160 * c.factor, 90 * c.factor)

/-- Embedding of RenderTextureConfig::update_render_texture_size: the factor
is updated by saturating_add_signed and then floored at 1. -/
def RenderTextureConfig.update_render_texture_size (c : RenderTextureConfig)
    (delta : ℤ) : RenderTextureConfig :=
  { factor := max 1 (saturating_add_signed32 c.factor delta) }

/-! ### src/reloadable_graphics.rs and src/graphics.rs -/

/-- Embedding of ReloadableGraphics: it owns the render pipeline of the
fractal pass, held as an opaque identity. -/
structure ReloadableGraphics where
  render_pipeline : ℕ
deriving DecidableEq

/-- Embedding of ReloadableGraphics::init: shader-module creation runs inside
handle_device_errors; a popped validation error aborts the build, otherwise
create_render_pipeline (infallible) yields the fresh pipeline.  The
validation outcome and the fresh pipeline identity are abstract inputs. -/
def ReloadableGraphics.init (validation_error : Option String)
    (fresh_pipeline : ℕ) : Except String ReloadableGraphics :=
  match handle_device_errors validation_error fresh_pipeline with
  | Except.error e => Except.error e
  | Except.ok p => Except.ok ⟨p⟩

/-- Embedding of Graphics: the state visible to reload is the currently
active reloadable pipeline. -/
structure Graphics where
  reloadable : ReloadableGraphics
deriving DecidableEq

/-- Embedding of Graphics::reload: rebuild the reloadable pipeline; the
question-mark operator propagates a failure before any assignment happens, so
the reloadable field is replaced (by the single assignment) only on
success. -/
def Graphics.reload (g : Graphics) (validation_error : Option String)
    (fresh_pipeline : ℕ) : Except String Unit × Graphics :=
  match ReloadableGraphics.init validation_error fresh_pipeline with
  | Except.error e => (Except.error e, g)
  | Except.ok r => (Except.ok (), { g with reloadable := r })

/-- Embedding of Graphics::try_reload: run reload and turn a failure into a
printed diagnostic, returned here as the Option String component. -/
def Graphics.try_reload (g : Graphics) (validation_error : Option String)
    (fresh_pipeline : ℕ) : Option String × Graphics :=
  match g.reload validation_error fresh_pipeline with
  | (Except.error e, g2) => (some e, g2)
  | (Except.ok _, g2) => (none, g2)

/-! ### src/key_state.rs -/

/-- Embedding of KeyState: a held-key flag per navigation action (the
bitflags set, one named Boolean per flag). -/
structure KeyState where
  moveForward : Bool
  moveBackward : Bool
  moveRight : Bool
  moveLeft : Bool
  moveUp : Bool
  moveDown : Bool
  pitchUp : Bool
  pitchDown : Bool
  yawRight : Bool
  yawLeft : Bool
  shift : Bool
  control : Bool
deriving DecidableEq

/-- Embedding of KeyState::magnitude: the signed difference of the positive
and negative flag, an i8 in -1..1. -/
def KeyState.magnitude (positive negative : Bool) : ℤ :=
  (if positive then 1 else 0) - (if negative then 1 else 0)

/-- Embedding of KeyState::forward_magnitude. -/
def KeyState.forward_magnitude (k : KeyState) : ℤ :=
  KeyState.magnitude k.moveForward k.moveBackward

/-- Embedding of KeyState::right_magnitude. -/
def KeyState.right_magnitude (k : KeyState) : ℤ :=
  KeyState.magnitude k.moveRight k.moveLeft

/-- Embedding of KeyState::up_magnitude. -/
def KeyState.up_magnitude (k : KeyState) : ℤ :=
  KeyState.magnitude k.moveUp k.moveDown

/-- Embedding of KeyState::pitch_magnitude (positive flag is PitchDown). -/
def KeyState.pitch_magnitude (k : KeyState) : ℤ :=
  KeyState.magnitude k.pitchDown k.pitchUp

/-- Embedding of KeyState::yaw_magnitude (positive flag is YawRight). -/
def KeyState.yaw_magnitude (k : KeyState) : ℤ :=
  KeyState.magnitude k.yawRight k.yawLeft

/-! ### Real-valued scalar helpers for the camera (cgmath and Rust f32) -/

/-- Embedding of num_traits::clamp over the reals: below lo gives lo, above
hi gives hi, otherwise the input. -/
noncomputable def clampR (x lo hi : ℝ) : ℝ :=
  if x < lo then lo else if hi < x then hi else x

/-- Truncation of a real toward zero, the rounding used by the Rust float
remainder. -/
noncomputable def truncR (x : ℝ) : ℝ :=
  if 0 ≤ x then ((⌊x⌋ : ℤ) : ℝ) else ((⌈x⌉ : ℤ) : ℝ)

/-- Embedding of the Rust % operator on floats:
x % y = x - y * trunc(x / y). -/
noncomputable def fRem (x y : ℝ) : ℝ :=
  x - y * truncR (x / y)

/-- Embedding of f32::atan2(y, x): the principal argument of the planar
point (x, y), in (-pi, pi]. -/
noncomputable def atan2 (y x : ℝ) : ℝ :=
  Complex.arg ⟨x, y⟩

/-- Embedding of Rad::full_turn(). -/
noncomputable def full_turn : ℝ :=
  2 * Real.pi

/-- Embedding of cgmath Vector3 of f32. -/
structure Vec3 where
  x : ℝ
  y : ℝ
  z : ℝ

noncomputable instance : DecidableEq Vec3 :=
  Classical.decEq _

instance : Add Vec3 :=
  ⟨fun a b => ⟨a.x + b.x, a.y + b.y, a.z + b.z⟩⟩

/-- Componentwise scalar multiple of a vector. -/
def Vec3.scale (v : Vec3) (s : ℝ) : Vec3 :=
  ⟨v.x * s, v.y * s, v.z * s⟩

/-- Embedding of cgmath InnerSpace::magnitude: the Euclidean length. -/
noncomputable def Vec3.magnitude (v : Vec3) : ℝ :=
  Real.sqrt (v.x ^ 2 + v.y ^ 2 + v.z ^ 2)

/-- Embedding of cgmath InnerSpace::normalize_to: scale the vector to the
given length. -/
noncomputable def Vec3.normalize_to (v : Vec3) (s : ℝ) : Vec3 :=
  v.scale (s / v.magnitude)

/-- Embedding of cgmath Matrix3::from_angle_y applied to a vector: rotation
about the world-up axis. -/
noncomputable def rotateY (angle : ℝ) (v : Vec3) : Vec3 :=
  ⟨v.x * Real.cos angle + v.z * Real.sin angle,
   v.y,
   -(v.x * Real.sin angle) + v.z * Real.cos angle⟩

/-! ### src/camera.rs -/

/-- Embedding of camera::LockYawMode. -/
inductive LockYawMode where
  | None
  | Inwards
  | Right
  | Outwards
  | Left
deriving DecidableEq

/-- Embedding of camera::Camera. -/
structure Camera where
  movement_per_second : ℝ
  orbit_angle_per_second : ℝ
  lock_yaw_mode : LockYawMode
  lock_pitch : Bool
  position : Vec3
  pitch : ℝ
  yaw : ℝ

/-- Embedding of Camera::ROTATION_PER_SECOND. -/
noncomputable def Camera.rotation_per_second : ℝ :=
  0.5

/-- Embedding of Camera::ROTATION_PER_PIXEL. -/
noncomputable def Camera.rotation_per_pixel : ℝ :=
  0.0003

/-- Embedding of Camera::MAX_PITCH (the f32 value FRAC_PI_2). -/
noncomputable def Camera.max_pitch : ℝ :=
  Real.pi / 2

/-- Embedding of Camera::MIN_PITCH. -/
noncomputable def Camera.min_pitch : ℝ :=
  -Camera.max_pitch

/-- Embedding of Camera::forward: the z column of the yaw rotation,
truncated to three components. -/
noncomputable def Camera.forward (c : Camera) : Vec3 :=
  ⟨Real.sin c.yaw, 0, Real.cos c.yaw⟩

/-- Embedding of Camera::right: the x column of the yaw rotation, truncated
to three components. -/
noncomputable def Camera.right (c : Camera) : Vec3 :=
  ⟨Real.cos c.yaw, 0, -Real.sin c.yaw⟩

/-- Embedding of Camera::up: the world up axis. -/
def Camera.up (_c : Camera) : Vec3 :=
  ⟨0, 1, 0⟩

/-- Embedding of Camera::update_pitch: the pitch is clamped to
[MIN_PITCH, MAX_PITCH]. -/
noncomputable def Camera.update_pitch (c : Camera) (pitch : ℝ) : Camera :=
  { c with pitch := clampR pitch Camera.min_pitch Camera.max_pitch }

/-- Embedding of Camera::update_yaw: the yaw is reduced by the float
remainder modulo a full turn. -/
noncomputable def Camera.update_yaw (c : Camera) (yaw : ℝ) : Camera :=
  { c with yaw := fRem yaw full_turn }

/-- Embedding of Camera::add_pitch. -/
noncomputable def Camera.add_pitch (c : Camera) (pitch : ℝ) : Camera :=
  c.update_pitch (c.pitch + pitch)

/-- Embedding of Camera::add_yaw. -/
noncomputable def Camera.add_yaw (c : Camera) (yaw : ℝ) : Camera :=
  c.update_yaw (c.yaw + yaw)

/-- Embedding of Camera::do_movement: sum the basis vectors weighted by the
signed key magnitudes; if the sum is nonzero, move by that direction
normalised to movement_per_second * seconds; then apply keyboard pitch and
yaw rotation at ROTATION_PER_SECOND. -/
noncomputable def Camera.do_movement (c : Camera) (keys : KeyState) (seconds : ℝ) : Camera :=
  let movement := c.forward.scale (keys.forward_magnitude : ℝ) +
    c.right.scale (keys.right_magnitude : ℝ) + c.up.scale (keys.up_magnitude : ℝ)
  let c1 := if movement = (⟨0, 0, 0⟩ : Vec3) then c
    else { c with position :=
      c.position + movement.normalize_to (c.movement_per_second * seconds) }
  let rotation_magnitude := Camera.rotation_per_second * seconds
  (c1.add_pitch (rotation_magnitude * (keys.pitch_magnitude : ℝ))).add_yaw
    (rotation_magnitude * (keys.yaw_magnitude : ℝ))

/-- Embedding of Camera::do_orbit: rotate the position about the world-up
axis by orbit_angle_per_second * seconds. -/
noncomputable def Camera.do_orbit (c : Camera) (seconds : ℝ) : Camera :=
  { c with position := rotateY (c.orbit_angle_per_second * seconds) c.position }

/-- Per-mode yaw offset of Camera::do_lock_yaw; LockYawMode::None returns
early with no offset. -/
noncomputable def lock_yaw_offset : LockYawMode → Option ℝ
  | LockYawMode.None => none
  | LockYawMode.Inwards => some (-(full_turn / 2))
  | LockYawMode.Right => some (-(full_turn / 4))
  | LockYawMode.Outwards => some 0
  | LockYawMode.Left => some (full_turn / 4)

/-- Embedding of Camera::do_lock_yaw: outside mode None, the yaw becomes
atan2(position.x, position.z) plus the per-mode offset. -/
noncomputable def Camera.do_lock_yaw (c : Camera) : Camera :=
  match lock_yaw_offset c.lock_yaw_mode with
  | none => c
  | some offset => { c with yaw := atan2 c.position.x c.position.z + offset }

/-- Embedding of Camera::do_lock_pitch: when the pitch lock is on, the pitch
becomes atan2(position.y, r) with r the horizontal radius. -/
noncomputable def Camera.do_lock_pitch (c : Camera) : Camera :=
  if c.lock_pitch then
    let radius := Real.sqrt (c.position.x ^ 2 + c.position.z ^ 2)
    { c with pitch := atan2 c.position.y radius }
  else c

/-- Embedding of Camera::do_lock_rotation. -/
noncomputable def Camera.do_lock_rotation (c : Camera) : Camera :=
  c.do_lock_yaw.do_lock_pitch

/-- Embedding of Camera::update: movement, then orbit, then the rotation
locks; the Duration is given as its f32 seconds. -/
noncomputable def Camera.update (c : Camera) (keys : KeyState) (seconds : ℝ) : Camera :=
  ((c.do_movement keys seconds).do_orbit seconds).do_lock_rotation

/-- Embedding of Camera::rotate_from_cursor_movement: each pixel of cursor
delta adds ROTATION_PER_PIXEL to pitch and yaw. -/
noncomputable def Camera.rotate_from_cursor_movement (c : Camera)
    (yaw_pixels pitch_pixels : ℝ) : Camera :=
  (c.add_pitch (Camera.rotation_per_pixel * pitch_pixels)).add_yaw
    (Camera.rotation_per_pixel * yaw_pixels)

/-! ### Derived notions used by the claims -/

/-- Calls a client can make on the camera between frames: the per-frame
update with held keys and elapsed seconds, or a cursor-movement rotation. -/
inductive CameraOp where
  | update (keys : KeyState) (seconds : ℝ)
  | rotate (yaw_pixels pitch_pixels : ℝ)

/-- Apply one camera call. -/
noncomputable def Camera.applyOp (c : Camera) : CameraOp → Camera
  | CameraOp.update keys seconds => c.update keys seconds
  | CameraOp.rotate yp pp => c.rotate_from_cursor_movement yp pp

/-- Pitch lies in the closed interval [-90 degrees, 90 degrees]. -/
def pitchInRange (c : Camera) : Prop :=
  Camera.min_pitch ≤ c.pitch ∧ c.pitch ≤ Camera.max_pitch

/-- Modelled from the spec: the per-mode offset the specification adds to
atan2(-position.x, -position.z) (None is excluded by the claims; Right and
Left take the two opposite signs of a quarter turn). -/
noncomputable def spec_lock_yaw_offset : LockYawMode → ℝ
  | LockYawMode.None => 0
  | LockYawMode.Inwards => full_turn / 2
  | LockYawMode.Right => full_turn / 4
  | LockYawMode.Outwards => 0
  | LockYawMode.Left => -(full_turn / 4)

/-- Amended per-mode offset on top of atan2(-position.x, -position.z) that
the code actually realises: Inwards 0, Right a quarter turn, Outwards a half
turn, Left minus a quarter turn. -/
noncomputable def amended_lock_yaw_offset : LockYawMode → ℝ
  | LockYawMode.None => 0
  | LockYawMode.Inwards => 0
  | LockYawMode.Right => full_turn / 4
  | LockYawMode.Outwards => full_turn / 2
  | LockYawMode.Left => -(full_turn / 4)

/-- Embedding of the derived Default for Parameters: every field zero. -/
def Parameters.default : Parameters :=
  ⟨(0, 0), 0, 0, 0⟩

/-- Sample diagnostic text standing for a shader validation failure. -/
def sample_validation_error : String :=
  "fragment shader failed validation"

/-- Keyboard state with no key held. -/
def noKeys : KeyState :=
  ⟨false, false, false, false, false, false, false, false, false, false, false, false⟩

/-- Keyboard state with only the forward key held. -/
def forwardKeys : KeyState :=
  { noKeys with moveForward := true }

/-- Camera of the forward-movement scenario: at the origin, yaw and pitch
zero, unit movement speed, no orbit, no locks. -/
def scenarioCamera : Camera :=
  ⟨1, 0, LockYawMode.None, false, ⟨0, 0, 0⟩, 0, 0⟩

/-- Camera used for concrete yaw-lock evaluations: yaw-lock mode Inwards,
resting at position (0, 0, 1) with yaw and pitch zero. -/
def inwardsCamera : Camera :=
  ⟨1, 0, LockYawMode.Inwards, false, ⟨0, 0, 1⟩, 0, 0⟩

/-! ### Theorems -/

/-- Claim C5: the bounded-quadratic smoothing returns
linear * delta * kickoff from a zero current rate, and
linear * delta * clamp(|v|, mn, mx) from a nonzero current rate v. -/
theorem limited_quadratric_delta_spec (delta kickoff mn mx linear v : ℚ) :
    limited_quadratric_delta 0 delta kickoff mn mx linear = linear * delta * kickoff ∧
    (v ≠ 0 → limited_quadratric_delta v delta kickoff mn mx linear =
      linear * delta * clampQ |v| mn mx) := by
  constructor
  · simp [limited_quadratric_delta]
  · intro hv
    simp [limited_quadratric_delta, hv]

/-- Witness for C5 at current rate 3, delta 2, kickoff 5, clamp bounds
[1, 2], linear coefficient 7. -/
theorem limited_quadratric_delta_spec_witness :
    limited_quadratric_delta 3 2 5 1 2 7 = 7 * 2 * clampQ |(3 : ℚ)| 1 2 :=
  (limited_quadratric_delta_spec 2 5 1 2 7 3).2 (by norm_num)

/-- Claim C8: for a window with positive width and height, update_aspect
stores (width / min(width, height), height / min(width, height)); a square
window yields exactly (1, 1) and a 1920 by 1080 window yields
(1920 / 1080, 1). -/
theorem update_aspect_spec (p : Parameters) (width height : ℕ)
    (hw : 0 < width) (hh : 0 < height) :
    (p.update_aspect width height).aspect_scale =
      ((width : ℚ) / ((min width height : ℕ) : ℚ),
        (height : ℚ) / ((min width height : ℕ) : ℚ)) ∧
    (width = height → (p.update_aspect width height).aspect_scale = (1, 1)) ∧
    (width = 1920 → height = 1080 →
      (p.update_aspect width height).aspect_scale = ((1920 : ℚ) / 1080, 1)) := by
  refine ⟨rfl, ?_, ?_⟩
  · rintro rfl
    have hne : ((width : ℚ)) ≠ 0 := by exact_mod_cast hw.ne'
    simp [Parameters.update_aspect, div_self hne]
  · rintro rfl rfl
    norm_num [Parameters.update_aspect]

/-- Witness for C8 at the 1920 by 1080 window. -/
theorem update_aspect_spec_witness :
    (Parameters.default.update_aspect 1920 1080).aspect_scale = ((1920 : ℚ) / 1080, 1) :=
  (update_aspect_spec Parameters.default 1920 1080 (by norm_num) (by norm_num)).2.2 rfl rfl

/-- Claim C10: update_num_iterations saturates instead of wrapping: for a
count in the u32 range and a delta of 1 or -1, the new count is the old
count plus the delta clamped into [0, 2 ^ 32 - 1]; decrementing at 0 stays
at 0 and incrementing at the maximum stays at the maximum. -/
theorem update_num_iterations_saturates (p : Parameters)
    (hp : p.num_iterations ≤ 2 ^ 32 - 1) (d : ℤ) (hd : d = 1 ∨ d = -1) :
    (((p.update_num_iterations d).num_iterations : ℤ) =
      max 0 (min ((2 : ℤ) ^ 32 - 1) ((p.num_iterations : ℤ) + d))) ∧
    (p.num_iterations = 0 → d = -1 → (p.update_num_iterations d).num_iterations = 0) ∧
    (p.num_iterations = 2 ^ 32 - 1 → d = 1 →
      (p.update_num_iterations d).num_iterations = 2 ^ 32 - 1) := by
  refine ⟨?_, ?_, ?_⟩
  · simp only [Parameters.update_num_iterations, saturating_add_signed32]
    rw [Int.toNat_eq_max, max_comm]
  · rintro h0 rfl
    simp [Parameters.update_num_iterations, saturating_add_signed32, h0]
  · rintro hmax rfl
    simp only [Parameters.update_num_iterations, saturating_add_signed32, hmax]
    rfl

/-- Witness for C10: decrementing an iteration count of 0 leaves it at 0. -/
theorem update_num_iterations_saturates_witness :
    (Parameters.default.update_num_iterations (-1)).num_iterations = 0 :=
  (update_num_iterations_saturates Parameters.default (by norm_num [Parameters.default])
    (-1) (Or.inr rfl)).2.1 rfl rfl

/-- Claim C9: from a factor of at least 1, any finite sequence of resolution
deltas leaves the factor at least 1, and the offscreen render size is always
(160 * factor, 90 * factor). -/
theorem render_texture_factor_invariant (c : RenderTextureConfig)
    (hc : 1 ≤ c.factor) (deltas : List ℤ) :
    1 ≤ (List.foldl RenderTextureConfig.update_render_texture_size c deltas).factor ∧
    (List.foldl RenderTextureConfig.update_render_texture_size c deltas).render_texture_size =
      (160 * (List.foldl RenderTextureConfig.update_render_texture_size c deltas).factor,
        90 * (List.foldl RenderTextureConfig.update_render_texture_size c deltas).factor) := by
  refine ⟨?_, rfl⟩
  induction deltas generalizing c with
  | nil => exact hc
  | cons d ds ih => exact ih _ (le_max_left _ _)

/-- Witness for C9: starting at factor 12 and applying a decrease of 100
then an increase of 3, the factor stays at least 1. -/
theorem render_texture_factor_invariant_witness :
    1 ≤ (List.foldl RenderTextureConfig.update_render_texture_size ⟨12⟩ [-100, 3]).factor :=
  (render_texture_factor_invariant ⟨12⟩ (by norm_num) [-100, 3]).1

/-- Claim C1 evaluated at a failing input: with time factor 1, a stored time
of 5 and a frame delta of 1/10, Timing::update stores 1/10 in the
parameters, not the accumulated 5 + 1 * (1/10) the claim requires:
Parameters::update_time overwrites the time uniform with
time_factor * delta instead of adding to it. -/
theorem timing_update_overwrites_time :
    ((Timing.mk 1).update (1 / 10) { Parameters.default with time := 5 }).1.time = 1 / 10 ∧
    ((Timing.mk 1).update (1 / 10) { Parameters.default with time := 5 }).1.time ≠
      5 + 1 * (1 / 10) := by
  constructor
  · norm_num [Timing.update, Parameters.update_time]
  · norm_num [Timing.update, Parameters.update_time]

/-- Claim C2: reload is all-or-nothing: when the device pops a validation
error, reload reports that failure and leaves the graphics state, in
particular the active render pipeline, untouched; when no validation error
occurs, the single assignment installs the freshly built pipeline. -/
theorem reload_all_or_nothing (g : Graphics) (validation_error : Option String)
    (fresh_pipeline : ℕ) :
    (∀ e, validation_error = some e →
      g.reload validation_error fresh_pipeline = (Except.error e, g)) ∧
    (validation_error = none →
      g.reload validation_error fresh_pipeline =
        (Except.ok (), { g with reloadable := ⟨fresh_pipeline⟩ })) := by
  constructor
  · rintro e rfl
    rfl
  · rintro rfl
    rfl

/-- Witness for C2: reloading with a failing shader validation keeps
pipeline 7 active and returns the failure. -/
theorem reload_all_or_nothing_witness :
    Graphics.reload ⟨⟨7⟩⟩ (some sample_validation_error) 8 =
      (Except.error sample_validation_error, ⟨⟨7⟩⟩) :=
  (reload_all_or_nothing ⟨⟨7⟩⟩ (some sample_validation_error) 8).1
    sample_validation_error rfl

/-- Vector addition acts componentwise. -/
theorem Vec3.add_def (a b : Vec3) : a + b = ⟨a.x + b.x, a.y + b.y, a.z + b.z⟩ :=
  rfl

/-- The pitch bounds are ordered. -/
theorem min_pitch_le_max_pitch : Camera.min_pitch ≤ Camera.max_pitch := by
  unfold Camera.min_pitch Camera.max_pitch
  nlinarith [Real.pi_pos]

/-- Clamping with ordered bounds lands in the closed interval. -/
theorem clampR_mem (x lo hi : ℝ) (h : lo ≤ hi) :
    lo ≤ clampR x lo hi ∧ clampR x lo hi ≤ hi := by
  unfold clampR
  split_ifs with h1 h2
  · exact ⟨le_rfl, h⟩
  · exact ⟨h, le_rfl⟩
  · exact ⟨not_lt.mp h1, not_lt.mp h2⟩

/-- Camera::update_pitch always lands in the pitch interval. -/
theorem pitchInRange_update_pitch (c : Camera) (p : ℝ) :
    pitchInRange (c.update_pitch p) :=
  clampR_mem p _ _ min_pitch_le_max_pitch

/-- Camera::add_yaw does not touch the pitch. -/
theorem pitchInRange_add_yaw (c : Camera) (y : ℝ) :
    pitchInRange (c.add_yaw y) ↔ pitchInRange c :=
  Iff.rfl

/-- Camera::do_lock_yaw does not touch the pitch. -/
theorem do_lock_yaw_pitch (c : Camera) : c.do_lock_yaw.pitch = c.pitch := by
  unfold Camera.do_lock_yaw
  rcases h : lock_yaw_offset c.lock_yaw_mode with _ | off <;> simp [h]

/-- Camera::do_lock_yaw does not touch the position. -/
theorem do_lock_yaw_position (c : Camera) : c.do_lock_yaw.position = c.position := by
  unfold Camera.do_lock_yaw
  rcases h : lock_yaw_offset c.lock_yaw_mode with _ | off <;> simp [h]

/-- Camera::do_lock_yaw does not touch the yaw-lock mode. -/
theorem do_lock_yaw_mode (c : Camera) : c.do_lock_yaw.lock_yaw_mode = c.lock_yaw_mode := by
  unfold Camera.do_lock_yaw
  rcases h : lock_yaw_offset c.lock_yaw_mode with _ | off <;> simp [h]

/-- Camera::do_lock_pitch does not touch the yaw. -/
theorem do_lock_pitch_yaw (c : Camera) : c.do_lock_pitch.yaw = c.yaw := by
  unfold Camera.do_lock_pitch
  split_ifs <;> rfl

/-- Camera::do_lock_pitch does not touch the position. -/
theorem do_lock_pitch_position (c : Camera) : c.do_lock_pitch.position = c.position := by
  unfold Camera.do_lock_pitch
  split_ifs <;> rfl

/-- Camera::do_lock_pitch does not touch the yaw-lock mode. -/
theorem do_lock_pitch_mode (c : Camera) :
    c.do_lock_pitch.lock_yaw_mode = c.lock_yaw_mode := by
  unfold Camera.do_lock_pitch
  split_ifs <;> rfl

/-- Camera::do_lock_pitch keeps the pitch interval: either it keeps the
pitch, or it assigns the argument of a point with nonnegative first
coordinate, which lies in [-pi/2, pi/2]. -/
theorem pitchInRange_do_lock_pitch (c : Camera) (h : pitchInRange c) :
    pitchInRange c.do_lock_pitch := by
  unfold Camera.do_lock_pitch
  split_ifs with hl
  · have hre : (0 : ℝ) ≤ Real.sqrt (c.position.x ^ 2 + c.position.z ^ 2) :=
      Real.sqrt_nonneg _
    unfold pitchInRange Camera.min_pitch Camera.max_pitch atan2
    constructor
    · exact Complex.neg_pi_div_two_le_arg_iff.mpr (Or.inl hre)
    · exact Complex.arg_le_pi_div_two_iff.mpr (Or.inl hre)
  · exact h

/-- Camera::do_movement always lands in the pitch interval: its last pitch
write goes through update_pitch. -/
theorem pitchInRange_do_movement (c : Camera) (keys : KeyState) (seconds : ℝ) :
    pitchInRange (c.do_movement keys seconds) := by
  unfold Camera.do_movement Camera.add_pitch
  rw [pitchInRange_add_yaw]
  exact pitchInRange_update_pitch _ _

/-- Camera::update always lands in the pitch interval. -/
theorem pitchInRange_update (c : Camera) (keys : KeyState) (seconds : ℝ) :
    pitchInRange (c.update keys seconds) := by
  unfold Camera.update Camera.do_lock_rotation
  apply pitchInRange_do_lock_pitch
  have hpe : ((c.do_movement keys seconds).do_orbit seconds).do_lock_yaw.pitch =
      (c.do_movement keys seconds).pitch := do_lock_yaw_pitch _
  unfold pitchInRange
  rw [hpe]
  exact pitchInRange_do_movement c keys seconds

/-- Camera::rotate_from_cursor_movement always lands in the pitch
interval. -/
theorem pitchInRange_rotate (c : Camera) (yaw_pixels pitch_pixels : ℝ) :
    pitchInRange (c.rotate_from_cursor_movement yaw_pixels pitch_pixels) := by
  unfold Camera.rotate_from_cursor_movement Camera.add_pitch
  rw [pitchInRange_add_yaw]
  exact pitchInRange_update_pitch _ _

/-- Every camera call lands in the pitch interval. -/
theorem pitchInRange_applyOp (c : Camera) (op : CameraOp) :
    pitchInRange (c.applyOp op) := by
  cases op with
  | update keys seconds => exact pitchInRange_update c keys seconds
  | rotate yp pp => exact pitchInRange_rotate c yp pp

/-- The pitch interval is preserved by any sequence of camera calls. -/
theorem pitchInRange_foldl (c : Camera) (h : pitchInRange c) (ops : List CameraOp) :
    pitchInRange (List.foldl Camera.applyOp c ops) := by
  induction ops generalizing c with
  | nil => exact h
  | cons op ops ih => exact ih _ (pitchInRange_applyOp c op)

/-- Claim C3: from an initial pitch in [-90, 90] degrees, after every call
of any sequence of Camera::update and rotate_from_cursor_movement calls
(arbitrary key states, durations and cursor deltas) the pitch is still in
[-90, 90] degrees: the camera after every prefix of the sequence satisfies
the bound. -/
theorem camera_pitch_invariant (c : Camera) (hc : pitchInRange c)
    (ops p q : List CameraOp) (hops : ops = p ++ q) :
    pitchInRange (List.foldl Camera.applyOp c p) :=
  pitchInRange_foldl c hc p

/-- Witness for C3: one update with the forward key held for one second,
taken as the one-call prefix of itself. -/
theorem camera_pitch_invariant_witness :
    pitchInRange (List.foldl Camera.applyOp scenarioCamera
      [CameraOp.update forwardKeys 1]) :=
  camera_pitch_invariant scenarioCamera
    (by
      constructor
      · show Camera.min_pitch ≤ (0 : ℝ)
        unfold Camera.min_pitch Camera.max_pitch
        nlinarith [Real.pi_pos]
      · show (0 : ℝ) ≤ Camera.max_pitch
        unfold Camera.max_pitch
        nlinarith [Real.pi_pos])
    [CameraOp.update forwardKeys 1] [CameraOp.update forwardKeys 1] [] (by simp)

/-- Claim C6: the orbit step is a rotation about the world-up axis, so it
preserves the horizontal radius sqrt(x^2 + z^2) and the height y. -/
theorem do_orbit_preserves_radius (c : Camera) (seconds : ℝ) :
    Real.sqrt ((c.do_orbit seconds).position.x ^ 2 +
        (c.do_orbit seconds).position.z ^ 2) =
      Real.sqrt (c.position.x ^ 2 + c.position.z ^ 2) ∧
    (c.do_orbit seconds).position.y = c.position.y := by
  constructor
  · have h : (c.do_orbit seconds).position.x ^ 2 + (c.do_orbit seconds).position.z ^ 2 =
        c.position.x ^ 2 + c.position.z ^ 2 := by
      simp only [Camera.do_orbit, rotateY]
      linear_combination (c.position.x ^ 2 + c.position.z ^ 2) *
        Real.sin_sq_add_cos_sq (c.orbit_angle_per_second * seconds)
    rw [h]
  · rfl

/-- Clamping zero between the pitch bounds gives zero. -/
theorem clampR_zero_pitch : clampR 0 Camera.min_pitch Camera.max_pitch = 0 := by
  unfold clampR Camera.min_pitch Camera.max_pitch
  have h := Real.pi_pos
  rw [if_neg (by nlinarith), if_neg (by nlinarith)]

/-- The float remainder of zero is zero. -/
theorem fRem_zero (y : ℝ) : fRem 0 y = 0 := by
  unfold fRem truncR
  simp

/-- A noKeys update over zero seconds moves nothing: the movement vector is
zero and the keyboard rotation deltas vanish. -/
theorem inwardsCamera_movement : inwardsCamera.do_movement noKeys 0 = inwardsCamera := by
  unfold Camera.do_movement
  have hm : inwardsCamera.forward.scale ((noKeys.forward_magnitude : ℤ) : ℝ) +
      inwardsCamera.right.scale ((noKeys.right_magnitude : ℤ) : ℝ) +
      inwardsCamera.up.scale ((noKeys.up_magnitude : ℤ) : ℝ) = (⟨0, 0, 0⟩ : Vec3) := by
    simp [Camera.forward, Camera.right, Camera.up, Vec3.scale, Vec3.add_def,
      noKeys, KeyState.forward_magnitude, KeyState.right_magnitude,
      KeyState.up_magnitude, KeyState.magnitude]
  rw [hm]
  simp [Camera.add_pitch, Camera.add_yaw, Camera.update_pitch, Camera.update_yaw,
    inwardsCamera, noKeys, KeyState.pitch_magnitude, KeyState.yaw_magnitude,
    KeyState.magnitude, clampR_zero_pitch, fRem_zero]

/-- Orbiting at zero angular speed keeps the camera fixed here. -/
theorem inwardsCamera_orbit :
    (inwardsCamera.do_movement noKeys 0).do_orbit 0 = inwardsCamera := by
  rw [inwardsCamera_movement]
  unfold Camera.do_orbit rotateY
  simp [inwardsCamera]

/-- Full evaluation of one noKeys update of the Inwards-locked camera at
position (0, 0, 1): the yaw lock assigns atan2(0, 1) - pi = -pi. -/
theorem inwardsCamera_update :
    inwardsCamera.update noKeys 0 = { inwardsCamera with yaw := -Real.pi } := by
  unfold Camera.update Camera.do_lock_rotation
  rw [inwardsCamera_orbit]
  unfold Camera.do_lock_yaw
  have h1 : (⟨(1 : ℝ), (0 : ℝ)⟩ : ℂ) = 1 := by
    apply Complex.ext <;> simp
  simp [lock_yaw_offset, inwardsCamera, Camera.do_lock_pitch, atan2, h1,
    Complex.arg_one, full_turn]

/-- A planar point with a nonzero coordinate is a nonzero complex number. -/
theorem complex_ne_zero_of_coords {x y : ℝ} (h : ¬(y = 0 ∧ x = 0)) :
    (⟨x, y⟩ : ℂ) ≠ 0 := by
  intro h0
  apply h
  have hre := congrArg Complex.re h0
  have him := congrArg Complex.im h0
  simp only [Complex.zero_re, Complex.zero_im] at hre him
  exact ⟨him, hre⟩

/-- Negating both atan2 arguments adds a half turn, as an angle modulo a
full turn, whenever the point is not the origin. -/
theorem atan2_neg_coe_angle (y x : ℝ) (h : ¬(y = 0 ∧ x = 0)) :
    ((atan2 (-y) (-x) : ℝ) : Real.Angle) =
      ((atan2 y x : ℝ) : Real.Angle) + ((Real.pi : ℝ) : Real.Angle) := by
  unfold atan2
  have h1 : (⟨-x, -y⟩ : ℂ) = -(⟨x, y⟩ : ℂ) := by
    apply Complex.ext <;> simp
  rw [h1]
  exact Complex.arg_neg_coe_angle (complex_ne_zero_of_coords h)

/-- The code offset of each yaw-lock mode agrees, modulo a full turn, with a
half turn plus the amended offset stated over atan2(-x, -z). -/
theorem lock_yaw_offset_agrees (m : LockYawMode) (off : ℝ)
    (hoff : lock_yaw_offset m = some off) :
    ((off : ℝ) : Real.Angle) =
      ((Real.pi + amended_lock_yaw_offset m : ℝ) : Real.Angle) := by
  cases m with
  | None => simp [lock_yaw_offset] at hoff
  | Inwards =>
      have ho : off = -(full_turn / 2) := by
        have := hoff
        simp [lock_yaw_offset] at this
        exact this.symm
      rw [ho, Real.Angle.angle_eq_iff_two_pi_dvd_sub]
      refine ⟨-1, ?_⟩
      simp only [amended_lock_yaw_offset, full_turn]
      push_cast
      ring
  | Right =>
      have ho : off = -(full_turn / 4) := by
        have := hoff
        simp [lock_yaw_offset] at this
        exact this.symm
      rw [ho, Real.Angle.angle_eq_iff_two_pi_dvd_sub]
      refine ⟨-1, ?_⟩
      simp only [amended_lock_yaw_offset, full_turn]
      push_cast
      ring
  | Outwards =>
      have ho : off = 0 := by
        have := hoff
        simp [lock_yaw_offset] at this
        exact this.symm
      rw [ho, Real.Angle.angle_eq_iff_two_pi_dvd_sub]
      refine ⟨-1, ?_⟩
      simp only [amended_lock_yaw_offset, full_turn]
      push_cast
      ring
  | Left =>
      have ho : off = full_turn / 4 := by
        have := hoff
        simp [lock_yaw_offset] at this
        exact this.symm
      rw [ho, Real.Angle.angle_eq_iff_two_pi_dvd_sub]
      refine ⟨0, ?_⟩
      simp only [amended_lock_yaw_offset, full_turn]
      push_cast
      ring

/-- Away from the vertical axis, do_lock_yaw realises, modulo a full turn,
atan2(-x, -z) plus the amended per-mode offset. -/
theorem do_lock_yaw_angle (d : Camera) (hmode : d.lock_yaw_mode ≠ LockYawMode.None)
    (hpos : ¬(d.position.x = 0 ∧ d.position.z = 0)) :
    ((d.do_lock_yaw.yaw : ℝ) : Real.Angle) =
      ((atan2 (-d.position.x) (-d.position.z) +
        amended_lock_yaw_offset d.lock_yaw_mode : ℝ) : Real.Angle) := by
  have hneg := atan2_neg_coe_angle d.position.x d.position.z hpos
  have hoff : ∀ off, lock_yaw_offset d.lock_yaw_mode = some off →
      d.do_lock_yaw.yaw = atan2 d.position.x d.position.z + off := by
    intro off hoff
    unfold Camera.do_lock_yaw
    rw [hoff]
  rcases ho : lock_yaw_offset d.lock_yaw_mode with _ | off
  · exfalso
    apply hmode
    cases hm : d.lock_yaw_mode <;> rw [hm] at ho <;>
      simp [lock_yaw_offset] at ho
  · have hyaw := hoff off ho
    rw [hyaw, Real.Angle.coe_add, Real.Angle.coe_add, hneg,
      lock_yaw_offset_agrees d.lock_yaw_mode off ho, Real.Angle.coe_add]
    exact (add_assoc _ _ _).symm

/-- Claim C4 as stated fails on the code: for the Inwards mode at position
(0, 0, 1), the updated yaw is -pi, a half turn away from
atan2(-x, -z) + 180 degrees = atan2(0, -1) + pi, which is a full turn. -/
theorem yaw_lock_offsets_counterexample :
    ¬ ((((inwardsCamera.update noKeys 0).yaw : ℝ) : Real.Angle) =
      ((atan2 (-(inwardsCamera.update noKeys 0).position.x)
          (-(inwardsCamera.update noKeys 0).position.z) +
        spec_lock_yaw_offset (inwardsCamera.update noKeys 0).lock_yaw_mode : ℝ) :
        Real.Angle)) := by
  rw [inwardsCamera_update]
  simp only [inwardsCamera]
  intro h
  have hatan : atan2 (-(0 : ℝ)) (-(1 : ℝ)) = Real.pi := by
    unfold atan2
    have h2 : (⟨-(1 : ℝ), -(0 : ℝ)⟩ : ℂ) = -1 := by
      apply Complex.ext <;> simp
    rw [h2, Complex.arg_neg_one]
  rw [hatan] at h
  simp only [spec_lock_yaw_offset, full_turn] at h
  rw [show (Real.pi + 2 * Real.pi / 2 : ℝ) = 2 * Real.pi from by ring,
    Real.Angle.coe_two_pi, Real.Angle.coe_neg, Real.Angle.neg_coe_pi] at h
  exact Real.Angle.pi_ne_zero h

/-- Claim C4 amended: for every camera whose yaw-lock mode is not None and
whose horizontal position after the update is not on the vertical axis, the
yaw after Camera::update equals atan2(-position.x, -position.z) plus the
fixed per-mode offset Inwards 0, Right a quarter turn, Outwards a half turn,
Left minus a quarter turn, up to a multiple of a full turn. -/
theorem yaw_lock_amended (c : Camera) (keys : KeyState) (s : ℝ)
    (hmode : (c.update keys s).lock_yaw_mode ≠ LockYawMode.None)
    (hpos : ¬((c.update keys s).position.x = 0 ∧ (c.update keys s).position.z = 0)) :
    (((c.update keys s).yaw : ℝ) : Real.Angle) =
      ((atan2 (-(c.update keys s).position.x) (-(c.update keys s).position.z) +
        amended_lock_yaw_offset (c.update keys s).lock_yaw_mode : ℝ) :
        Real.Angle) := by
  have hu : c.update keys s = ((c.do_movement keys s).do_orbit s).do_lock_yaw.do_lock_pitch :=
    rfl
  rw [hu] at hmode hpos ⊢
  rw [do_lock_pitch_yaw, do_lock_pitch_position, do_lock_pitch_mode] at *
  rw [do_lock_yaw_position, do_lock_yaw_mode] at *
  exact do_lock_yaw_angle _ hmode hpos

/-- Witness for C4 amended: the Inwards-locked camera at (0, 0, 1) after a
noKeys update satisfies the amended yaw-lock equation. -/
theorem yaw_lock_amended_witness :
    (((inwardsCamera.update noKeys 0).yaw : ℝ) : Real.Angle) =
      ((atan2 (-(inwardsCamera.update noKeys 0).position.x)
          (-(inwardsCamera.update noKeys 0).position.z) +
        amended_lock_yaw_offset (inwardsCamera.update noKeys 0).lock_yaw_mode : ℝ) :
        Real.Angle) :=
  yaw_lock_amended inwardsCamera noKeys 0
    (by rw [inwardsCamera_update]; simp [inwardsCamera])
    (by rw [inwardsCamera_update]; simp [inwardsCamera])

/-- One second of forward movement at unit speed from the origin with yaw 0
adds the unit forward vector (0, 0, 1) to the position; the keyboard
rotation deltas vanish. -/
theorem scenario_movement :
    scenarioCamera.do_movement forwardKeys 1 =
      { scenarioCamera with position := ⟨0, 0, 1⟩ } := by
  unfold Camera.do_movement
  have hm : scenarioCamera.forward.scale ((forwardKeys.forward_magnitude : ℤ) : ℝ) +
      scenarioCamera.right.scale ((forwardKeys.right_magnitude : ℤ) : ℝ) +
      scenarioCamera.up.scale ((forwardKeys.up_magnitude : ℤ) : ℝ) =
      (⟨0, 0, 1⟩ : Vec3) := by
    simp [Camera.forward, Camera.right, Camera.up, Vec3.scale, Vec3.add_def,
      forwardKeys, noKeys, KeyState.forward_magnitude, KeyState.right_magnitude,
      KeyState.up_magnitude, KeyState.magnitude, scenarioCamera]
  rw [hm]
  have hne : (⟨0, 0, 1⟩ : Vec3) ≠ (⟨0, 0, 0⟩ : Vec3) := by
    simp [Vec3.mk.injEq]
  have hnorm : (⟨0, 0, 1⟩ : Vec3).normalize_to
      (scenarioCamera.movement_per_second * 1) = (⟨0, 0, 1⟩ : Vec3) := by
    unfold Vec3.normalize_to Vec3.magnitude Vec3.scale
    norm_num [scenarioCamera]
  simp only [if_neg hne, hnorm]
  simp [Camera.add_pitch, Camera.add_yaw, Camera.update_pitch, Camera.update_yaw,
    scenarioCamera, forwardKeys, noKeys, KeyState.pitch_magnitude,
    KeyState.yaw_magnitude, KeyState.magnitude, clampR_zero_pitch, fRem_zero,
    Vec3.add_def]

/-- Orbiting at zero angular speed keeps the scenario camera fixed. -/
theorem scenario_orbit :
    (scenarioCamera.do_movement forwardKeys 1).do_orbit 1 =
      { scenarioCamera with position := ⟨0, 0, 1⟩ } := by
  rw [scenario_movement]
  unfold Camera.do_orbit rotateY
  simp [scenarioCamera]

/-- Full evaluation of the forward scenario update: the position becomes
(0, 0, 1) and the rotation locks are off. -/
theorem scenario_update :
    scenarioCamera.update forwardKeys 1 =
      { scenarioCamera with position := ⟨0, 0, 1⟩ } := by
  unfold Camera.update Camera.do_lock_rotation
  rw [scenario_orbit]
  unfold Camera.do_lock_yaw
  simp [lock_yaw_offset, scenarioCamera, Camera.do_lock_pitch]

/-- Claim C7: from the camera at the origin with yaw 0, pitch 0, unit
movement speed, no locks and zero orbit speed, one second of update with
only the forward key held moves the position to the unit forward vector for
yaw 0, here (0, 0, 1), and leaves pitch and yaw at 0. -/
theorem forward_scenario :
    ((scenarioCamera.update forwardKeys 1).position = (⟨0, 0, 1⟩ : Vec3) ∨
      (scenarioCamera.update forwardKeys 1).position = (⟨0, 0, -1⟩ : Vec3)) ∧
    (scenarioCamera.update forwardKeys 1).pitch = 0 ∧
    (scenarioCamera.update forwardKeys 1).yaw = 0 := by
  refine ⟨Or.inl ?_, ?_, ?_⟩ <;> rw [scenario_update] <;> simp [scenarioCamera]
